import Mathlib

/-!
# Verification of the ChainFusion-SDK bridge core

A shallow embedding, in Lean 4, of the parts of the ChainFusion-SDK
repository that the specification's claims talk about:

* the `MintOrder` binary codec of `minter-contract-utils/src/erc721_mint_order.rs`;
* the EVM event-collector round of `brc20-bridge/src/scheduler.rs`;
* the nonce assignment of the deposit pipelines
  (`btc-bridge/src/canister.rs`, `rune-bridge/src/ops.rs`);
* the mint-order submission flow of `btc-bridge/src/ops.rs`;
* UTXO confirmation validation, withdraw-transaction input validation and
  fee-rate selection of `rune-bridge/src/ops.rs`;
* `State::set_token_symbol` of `brc20-bridge/src/state.rs`;
* `BurnRequestStore::set_transferred` of `btc-nft-bridge/src/interface/store.rs`.

Machine bytes are `Nat` values below 256; byte strings are `List Nat`.
Fallible Rust code is embedded in `Except`/`Option`; a Rust panic is
modelled as `Except.error` with the panic's description.
-/

set_option maxRecDepth 100000

namespace ChainFusion

/-! ## Byte-string utilities -/

/-- Big-endian 4-byte encoding of a `u32` value (Rust `u32::to_be_bytes`). -/
def u32be (n : Nat) : List Nat :=
  [n / 2 ^ 24 % 256, n / 2 ^ 16 % 256, n / 2 ^ 8 % 256, n % 256]

/-- Big-endian read of exactly 4 bytes (Rust `u32::from_be_bytes`); the callers
in the embedded code always pass a 4-byte slice. -/
def fromBe4 : List Nat → Nat
  | [a, b, c, d] => ((a * 256 + b) * 256 + c) * 256 + d
  | _ => 0

/-- Big-endian numeric value of a byte string (`U256::from_big_endian`). -/
def beNat (l : List Nat) : Nat := l.foldl (fun acc b => acc * 256 + b) 0

/-- The slice `data[i..i + n]` of a byte string. -/
def seg (data : List Nat) (i n : Nat) : List Nat := (data.drop i).take n

theorem u32be_length (n : Nat) : (u32be n).length = 4 := rfl

theorem fromBe4_u32be (n : Nat) (h : n < 2 ^ 32) : fromBe4 (u32be n) = n := by
  simp only [u32be, fromBe4]
  omega

theorem seg_append (l₁ l₂ : List Nat) (i n : Nat) :
    seg (l₁ ++ l₂) (l₁.length + i) n = seg l₂ i n := by
  simp [seg, List.drop_append]

theorem seg_zero_of_length (l₁ l₂ : List Nat) (n : Nat) (h : l₁.length = n) :
    seg (l₁ ++ l₂) 0 n = l₁ := by
  simp [seg, List.take_left' h]

/-- The byte offset of block `j` inside the concatenation of the blocks `bs`. -/
def blockOffset (bs : List (List Nat)) (j : Nat) : Nat :=
  ((bs.take j).map List.length).sum

/-- Reading `(bs.getD j []).length` bytes of `bs.flatten` at the offset of
block `j` yields block `j` itself. -/
theorem seg_flatten (bs : List (List Nat)) (j n : Nat)
    (h : (bs.getD j []).length = n) :
    seg bs.flatten (blockOffset bs j) n = bs.getD j [] := by
  induction bs generalizing j with
  | nil =>
    simp only [List.getD, List.get?, Option.getD] at h ⊢
    cases j <;> simp_all [seg, blockOffset]
  | cons hd tl ih =>
    cases j with
    | zero =>
      simp only [List.getD_cons_zero] at h
      simpa [blockOffset, List.flatten_cons] using seg_zero_of_length hd tl.flatten n h
    | succ j =>
      simp only [List.getD_cons_succ] at h ⊢
      have hoff : blockOffset (hd :: tl) (j + 1) = hd.length + blockOffset tl j := by
        simp [blockOffset, List.take_succ_cons]
      rw [List.flatten_cons, hoff, seg_append]
      exact ih j h

/-! ## UTF-8 validity

Rust `String::from_utf8` accepts exactly the RFC 3629 encodings: no overlong
forms, no surrogate code points, maximum scalar value `U+10FFFF`. -/

/-- UTF-8 continuation byte (`0x80..=0xBF`). -/
def isCont (b : Nat) : Bool := 128 ≤ b && b ≤ 191

/-- UTF-8 validity of a byte string, as decided by Rust `String::from_utf8`. -/
def utf8Valid : List Nat → Bool
  | [] => true
  | b :: rest =>
    if b ≤ 0x7F then utf8Valid rest
    else if 0xC2 ≤ b && b ≤ 0xDF then
      match rest with
      | c1 :: rest => isCont c1 && utf8Valid rest
      | [] => false
    else if b = 0xE0 then
      match rest with
      | c1 :: c2 :: rest => (0xA0 ≤ c1 && c1 ≤ 0xBF) && isCont c2 && utf8Valid rest
      | _ => false
    else if (0xE1 ≤ b && b ≤ 0xEC) || b = 0xEE || b = 0xEF then
      match rest with
      | c1 :: c2 :: rest => isCont c1 && isCont c2 && utf8Valid rest
      | _ => false
    else if b = 0xED then
      match rest with
      | c1 :: c2 :: rest => (0x80 ≤ c1 && c1 ≤ 0x9F) && isCont c2 && utf8Valid rest
      | _ => false
    else if b = 0xF0 then
      match rest with
      | c1 :: c2 :: c3 :: rest =>
        (0x90 ≤ c1 && c1 ≤ 0xBF) && isCont c2 && isCont c3 && utf8Valid rest
      | _ => false
    else if 0xF1 ≤ b && b ≤ 0xF3 then
      match rest with
      | c1 :: c2 :: c3 :: rest =>
        isCont c1 && isCont c2 && isCont c3 && utf8Valid rest
      | _ => false
    else if b = 0xF4 then
      match rest with
      | c1 :: c2 :: c3 :: rest =>
        (0x80 ≤ c1 && c1 ≤ 0x8F) && isCont c2 && isCont c3 && utf8Valid rest
      | _ => false
    else false

/-! ## The `MintOrder` codec (`erc721_mint_order.rs`) -/

/-- `MintOrder` (ERC-721 variant). Fixed-width byte fields (`Id256 = [u8; 32]`,
`H160 = [u8; 20]`, `name : [u8; 32]`, `symbol : [u8; 16]`) are byte lists;
`token_uri` is the byte content of the Rust `String`. -/
structure MintOrder where
  sender : List Nat
  src_token : List Nat
  recipient : List Nat
  dst_token : List Nat
  nonce : Nat
  sender_chain_id : Nat
  recipient_chain_id : Nat
  name : List Nat
  symbol : List Nat
  approve_spender : List Nat
  token_uri : List Nat
  deriving Repr, DecidableEq

/-- The invariants the Rust types give every constructed `MintOrder` value:
field widths, `u32` ranges, and `token_uri` being a Rust `String` (valid
UTF-8 whose byte length fits a `u32`, as required by the `as u32` cast in
`encode_and_sign`). -/
def MintOrder.Wf (o : MintOrder) : Prop :=
  o.sender.length = 32 ∧ o.src_token.length = 32 ∧ o.recipient.length = 20 ∧
  o.dst_token.length = 20 ∧ o.nonce < 2 ^ 32 ∧ o.sender_chain_id < 2 ^ 32 ∧
  o.recipient_chain_id < 2 ^ 32 ∧ o.name.length = 32 ∧ o.symbol.length = 16 ∧
  o.approve_spender.length = 20 ∧ utf8Valid o.token_uri = true ∧
  o.token_uri.length < 2 ^ 32

/-- `MintOrder::ENCODED_DATA_SIZE`. -/
def ENCODED_DATA_SIZE : Nat := 188

/-- `MintOrder::SIGNED_ENCODED_DATA_SIZE`. -/
def SIGNED_ENCODED_DATA_SIZE : Nat := ENCODED_DATA_SIZE + 65

/-- The block list written by `MintOrder::encode_and_sign` into its buffer:
fields at fixed offsets 0, 32, 64, 84, 104, 108, 112, 116, 148, 164, the
`u32` byte length of `token_uri` at 184, the `token_uri` bytes at 188, and
the signer's 65 signature bytes after them. -/
def MintOrder.encodeBlocks (o : MintOrder) (signature_bytes : List Nat) :
    List (List Nat) :=
  [o.sender, o.src_token, o.recipient, o.dst_token,
   u32be o.nonce, u32be o.sender_chain_id, u32be o.recipient_chain_id,
   o.name, o.symbol, o.approve_spender,
   u32be o.token_uri.length, o.token_uri, signature_bytes]

/-- `MintOrder::encode_and_sign`, with the 65 signature bytes the signer
returned for the KECCAK digest passed in as `signature_bytes` (the digest and
the signer are external collaborators; the layout does not depend on them). -/
def MintOrder.encodeAndSign (o : MintOrder) (signature_bytes : List Nat) :
    List Nat :=
  (o.encodeBlocks signature_bytes).flatten

/-- `MintOrder::decode_data`. `Except.error` models a Rust panic: the slice
`data[188..188 + data_size]` panics when it reaches past the end of `data`,
and `String::from_utf8(data).unwrap()` panics on invalid UTF-8. -/
def MintOrder.decode_data (data : List Nat) : Except String (Option MintOrder) :=
  if data.length < ENCODED_DATA_SIZE then .ok none
  else
    let data_size := fromBe4 (seg data 184 4)
    if 188 + data_size > data.length then
      .error "range end index out of range for slice"
    else
      let uri_bytes := seg data 188 data_size
      if utf8Valid uri_bytes then
        .ok (some
          { sender := seg data 0 32
            src_token := seg data 32 32
            recipient := seg data 64 20
            dst_token := seg data 84 20
            nonce := fromBe4 (seg data 104 4)
            sender_chain_id := fromBe4 (seg data 108 4)
            recipient_chain_id := fromBe4 (seg data 112 4)
            name := seg data 116 32
            symbol := seg data 148 16
            approve_spender := seg data 164 20
            token_uri := uri_bytes })
      else .error "called Result::unwrap on an Err value: Utf8Error"

/-- `ethers_core::types::Signature` as parsed from a 65-byte slice:
`r` and `s` big-endian 256-bit integers, `v` the final byte. -/
structure EthSignature where
  r : Nat
  s : Nat
  v : Nat
  deriving Repr, DecidableEq

/-- `Signature::try_from` applied to a 65-byte slice. -/
def parseSignature (bytes : List Nat) : EthSignature :=
  { r := beNat (seg bytes 0 32), s := beNat (seg bytes 32 32), v := bytes.getD 64 0 }

/-- `MintOrder::decode_signed` over the raw `SignedMintOrder` bytes. The
`match` mirrors the `?` on `decode_data` (a panic inside `decode_data`
propagates); `Except.error` in the last branch models the panic of the slice
`data[signature_start..signature_start + 65]` reaching past the end. -/
def MintOrder.decode_signed (data : List Nat) :
    Except String (Option (MintOrder × EthSignature)) :=
  if data.length < SIGNED_ENCODED_DATA_SIZE then .ok none
  else
    match MintOrder.decode_data data with
    | .error e => .error e
    | .ok none => .ok none
    | .ok (some o) =>
      let signature_start := ENCODED_DATA_SIZE + o.token_uri.length
      if signature_start + 65 > data.length then
        .error "range end index out of range for slice"
      else
        .ok (some (o, parseSignature (seg data signature_start 65)))

theorem encodeAndSign_length (o : MintOrder) (sig : List Nat) (hw : o.Wf)
    (hsig : sig.length = 65) :
    (o.encodeAndSign sig).length = SIGNED_ENCODED_DATA_SIZE + o.token_uri.length := by
  obtain ⟨h1, h2, h3, h4, _, _, _, h8, h9, h10, _, _⟩ := hw
  simp [MintOrder.encodeAndSign, MintOrder.encodeBlocks, h1, h2, h3, h4, h8, h9,
    h10, hsig, u32be_length, SIGNED_ENCODED_DATA_SIZE, ENCODED_DATA_SIZE]
  omega

theorem seg_encode_eq (o : MintOrder) (sig : List Nat) (j off n : Nat)
    (hoff : blockOffset (o.encodeBlocks sig) j = off)
    (hn : ((o.encodeBlocks sig).getD j []).length = n) :
    seg (o.encodeAndSign sig) off n = (o.encodeBlocks sig).getD j [] := by
  subst hoff
  exact seg_flatten _ j n hn

/-- Decoding the unsigned portion of an encoded order recovers the order. -/
theorem decode_data_encodeAndSign (o : MintOrder) (sig : List Nat) (hw : o.Wf)
    (hsig : sig.length = 65) :
    MintOrder.decode_data (o.encodeAndSign sig) = .ok (some o) := by
  obtain ⟨h1, h2, h3, h4, h5, h6, h7, h8, h9, h10, h11, h12⟩ := hw
  have hlen : (o.encodeAndSign sig).length =
      SIGNED_ENCODED_DATA_SIZE + o.token_uri.length :=
    encodeAndSign_length o sig
      ⟨h1, h2, h3, h4, h5, h6, h7, h8, h9, h10, h11, h12⟩ hsig
  have hs0 : seg (o.encodeAndSign sig) 0 32 = o.sender :=
    seg_encode_eq o sig 0 0 32 (by simp [blockOffset, MintOrder.encodeBlocks])
      (by simpa [MintOrder.encodeBlocks] using h1)
  have hs1 : seg (o.encodeAndSign sig) 32 32 = o.src_token :=
    seg_encode_eq o sig 1 32 32
      (by simp [blockOffset, MintOrder.encodeBlocks, h1])
      (by simpa [MintOrder.encodeBlocks] using h2)
  have hs2 : seg (o.encodeAndSign sig) 64 20 = o.recipient :=
    seg_encode_eq o sig 2 64 20
      (by simp [blockOffset, MintOrder.encodeBlocks, h1, h2])
      (by simpa [MintOrder.encodeBlocks] using h3)
  have hs3 : seg (o.encodeAndSign sig) 84 20 = o.dst_token :=
    seg_encode_eq o sig 3 84 20
      (by simp [blockOffset, MintOrder.encodeBlocks, h1, h2, h3])
      (by simpa [MintOrder.encodeBlocks] using h4)
  have hs4 : seg (o.encodeAndSign sig) 104 4 = u32be o.nonce :=
    seg_encode_eq o sig 4 104 4
      (by simp [blockOffset, MintOrder.encodeBlocks, h1, h2, h3, h4])
      (by simp [MintOrder.encodeBlocks, u32be_length])
  have hs5 : seg (o.encodeAndSign sig) 108 4 = u32be o.sender_chain_id :=
    seg_encode_eq o sig 5 108 4
      (by simp [blockOffset, MintOrder.encodeBlocks, h1, h2, h3, h4, u32be_length])
      (by simp [MintOrder.encodeBlocks, u32be_length])
  have hs6 : seg (o.encodeAndSign sig) 112 4 = u32be o.recipient_chain_id :=
    seg_encode_eq o sig 6 112 4
      (by simp [blockOffset, MintOrder.encodeBlocks, h1, h2, h3, h4, u32be_length])
      (by simp [MintOrder.encodeBlocks, u32be_length])
  have hs7 : seg (o.encodeAndSign sig) 116 32 = o.name :=
    seg_encode_eq o sig 7 116 32
      (by simp [blockOffset, MintOrder.encodeBlocks, h1, h2, h3, h4, u32be_length])
      (by simpa [MintOrder.encodeBlocks] using h8)
  have hs8 : seg (o.encodeAndSign sig) 148 16 = o.symbol :=
    seg_encode_eq o sig 8 148 16
      (by simp [blockOffset, MintOrder.encodeBlocks, h1, h2, h3, h4, h8,
        u32be_length])
      (by simpa [MintOrder.encodeBlocks] using h9)
  have hs9 : seg (o.encodeAndSign sig) 164 20 = o.approve_spender :=
    seg_encode_eq o sig 9 164 20
      (by simp [blockOffset, MintOrder.encodeBlocks, h1, h2, h3, h4, h8, h9,
        u32be_length])
      (by simpa [MintOrder.encodeBlocks] using h10)
  have hs10 : seg (o.encodeAndSign sig) 184 4 = u32be o.token_uri.length :=
    seg_encode_eq o sig 10 184 4
      (by simp [blockOffset, MintOrder.encodeBlocks, h1, h2, h3, h4, h8, h9, h10,
        u32be_length])
      (by simp [MintOrder.encodeBlocks, u32be_length])
  have hs11 : seg (o.encodeAndSign sig) 188 o.token_uri.length = o.token_uri :=
    seg_encode_eq o sig 11 188 o.token_uri.length
      (by simp [blockOffset, MintOrder.encodeBlocks, h1, h2, h3, h4, h8, h9, h10,
        u32be_length])
      (by simp [MintOrder.encodeBlocks])
  simp only [MintOrder.decode_data, hlen, SIGNED_ENCODED_DATA_SIZE,
    ENCODED_DATA_SIZE, hs10, fromBe4_u32be _ h12]
  rw [if_neg (by omega), if_neg (by omega), hs11, if_pos h11, hs0, hs1, hs2, hs3,
    hs4, hs5, hs6, hs7, hs8, hs9]
  rw [fromBe4_u32be _ h5, fromBe4_u32be _ h6, fromBe4_u32be _ h7]

/-- Decoding a signed encoded order recovers the order and the signature. -/
theorem decode_signed_encodeAndSign (o : MintOrder) (sig : List Nat) (hw : o.Wf)
    (hsig : sig.length = 65) :
    MintOrder.decode_signed (o.encodeAndSign sig) =
      .ok (some (o, parseSignature sig)) := by
  have h12 := hw.2.2.2.2.2.2.2.2.2.2.2
  have hlen : (o.encodeAndSign sig).length =
      SIGNED_ENCODED_DATA_SIZE + o.token_uri.length :=
    encodeAndSign_length o sig hw hsig
  have hsigseg : seg (o.encodeAndSign sig) (188 + o.token_uri.length) 65 = sig := by
    obtain ⟨h1, h2, h3, h4, _, _, _, h8, h9, h10, _, _⟩ := hw
    exact seg_encode_eq o sig 12 (188 + o.token_uri.length) 65
      (by simp [blockOffset, MintOrder.encodeBlocks, h1, h2, h3, h4, h8, h9, h10,
        u32be_length]; omega)
      (by simpa [MintOrder.encodeBlocks] using hsig)
  rw [MintOrder.decode_signed, if_neg (by omega),
    decode_data_encodeAndSign o sig hw hsig]
  simp only [SIGNED_ENCODED_DATA_SIZE, ENCODED_DATA_SIZE] at hlen ⊢
  rw [if_neg (by omega), hsigseg]

/-- A concrete well-formed order whose `token_uri` is the one-byte string
`"a"`. -/
def mintOrderA : MintOrder :=
  { sender := List.replicate 32 1
    src_token := List.replicate 32 2
    recipient := List.replicate 20 3
    dst_token := List.replicate 20 4
    nonce := 5
    sender_chain_id := 6
    recipient_chain_id := 7
    name := List.replicate 32 8
    symbol := List.replicate 16 9
    approve_spender := List.replicate 20 10
    token_uri := [97] }

/-- A concrete 65-byte signature value. -/
def sigZero : List Nat := List.replicate 65 0

/-- C3, the claim as stated is false: the bytes produced by `encode_and_sign`
for an order whose `token_uri` is the one-byte string `"a"` have length
`SIGNED_ENCODED_DATA_SIZE + 1 = 254`, not the declared constant size (neither
`SIGNED_ENCODED_DATA_SIZE = 253` nor `ENCODED_DATA_SIZE = 188`). -/
theorem c3_encoded_length_not_declared_constant :
    (mintOrderA.encodeAndSign sigZero).length ≠ SIGNED_ENCODED_DATA_SIZE ∧
    (mintOrderA.encodeAndSign sigZero).length ≠ ENCODED_DATA_SIZE := by
  constructor <;> decide

/-- C3 (amended): for every well-formed `MintOrder` and every 65-byte
signature produced by a successfully signing signer, `decode_signed` on the
bytes of `encode_and_sign` yields the order again, field for field, with the
signature parsed from the trailing 65 bytes; and the length of the encoding
is the declared constant `SIGNED_ENCODED_DATA_SIZE` plus the byte length of
`token_uri` (so it matches the constant exactly when `token_uri` is empty). -/
theorem c3_mint_order_codec_roundtrip (o : MintOrder) (sig : List Nat)
    (hw : o.Wf) (hsig : sig.length = 65) :
    MintOrder.decode_signed (o.encodeAndSign sig) =
      .ok (some (o, parseSignature sig)) ∧
    (o.encodeAndSign sig).length =
      SIGNED_ENCODED_DATA_SIZE + o.token_uri.length :=
  ⟨decode_signed_encodeAndSign o sig hw hsig, encodeAndSign_length o sig hw hsig⟩

/-- Witness for C3's theorem at the concrete order `mintOrderA` and the
concrete signature `sigZero`. -/
theorem c3_mint_order_codec_roundtrip_witness :
    MintOrder.decode_signed (mintOrderA.encodeAndSign sigZero) =
      .ok (some (mintOrderA, parseSignature sigZero)) ∧
    (mintOrderA.encodeAndSign sigZero).length =
      SIGNED_ENCODED_DATA_SIZE + mintOrderA.token_uri.length :=
  c3_mint_order_codec_roundtrip mintOrderA sigZero
    (by unfold MintOrder.Wf; decide) (by decide)

/-- A byte string of exactly `ENCODED_DATA_SIZE = 188` bytes whose declared
`u32` tail length (bytes 184..188) is 1, although no tail byte is present. -/
def truncatedTailInput : List Nat := List.replicate 184 0 ++ [0, 0, 0, 1]

/-- A byte string of 189 bytes whose declared tail length is 1 and whose one
tail byte `0xFF` is not valid UTF-8. -/
def badUtf8Input : List Nat := List.replicate 184 0 ++ [0, 0, 0, 1, 255]

/-- C4: the code, evaluated at the failing inputs. `decode_data` is not
total: on an input of exactly the expected fixed size whose declared `u32`
tail length exceeds the bytes present it panics (slice range out of bounds)
instead of returning `None`, and on an input whose tail is not valid UTF-8 it
panics in `String::from_utf8(..).unwrap()`; both inputs pass the
`length < ENCODED_DATA_SIZE` guard, so the claim says they decode to `Some`. -/
theorem c4_decode_data_panics :
    MintOrder.decode_data truncatedTailInput =
      .error "range end index out of range for slice" ∧
    ¬ truncatedTailInput.length < ENCODED_DATA_SIZE ∧
    MintOrder.decode_data badUtf8Input =
      .error "called Result::unwrap on an Err value: Utf8Error" ∧
    ¬ badUtf8Input.length < ENCODED_DATA_SIZE :=
  ⟨rfl, by decide, rfl, by decide⟩

/-! ## `State::set_token_symbol` (`brc20-bridge/src/state.rs`) -/

/-- The `BridgeError` variant produced by `State::set_token_symbol`. -/
inductive BridgeError
  | setTokenSymbol (msg : String)
  deriving Repr, DecidableEq

/-- `State::set_token_symbol` acting on the current 16-byte
`bft_config.token_symbol` buffer; returns the new buffer contents on success.
In the `Ordering::Less` arm, `copy_from_slice` into the prefix
`[..bytes.len()]` overwrites only the first `bytes.len()` bytes, so the
remaining bytes of the previous buffer stay in place. -/
def set_token_symbol (token_symbol : List Nat) (brc20_tick : List Nat) :
    Except BridgeError (List Nat) :=
  let bytes := brc20_tick
  match compare bytes.length 16 with
  | .eq => .ok bytes
  | .lt => .ok (bytes ++ token_symbol.drop bytes.length)
  | .gt => .error (.setTokenSymbol
      "Input string is longer than 16 bytes and needs truncation.")

/-- The stored `token_symbol` buffer after a `set_token_symbol` call: the new
contents on success, the previous contents when the call returned the error. -/
def token_symbol_after (token_symbol : List Nat) (brc20_tick : List Nat) :
    List Nat :=
  match set_token_symbol token_symbol brc20_tick with
  | .ok b => b
  | .error _ => token_symbol

/-- C9, the claim as stated is false: with the previous buffer holding 16
non-zero bytes, setting the 2-byte symbol `"ab"` succeeds but stores the two
new bytes followed by the 14 old bytes, not followed by zero bytes. -/
theorem c9_set_token_symbol_not_zero_padded :
    set_token_symbol (List.replicate 16 1) [97, 98] =
      .ok ([97, 98] ++ List.replicate 14 1) ∧
    ([97, 98] ++ List.replicate 14 1 : List Nat) ≠
      [97, 98] ++ List.replicate 14 0 :=
  ⟨rfl, by decide⟩

/-- C9 (amended): for every 16-byte buffer and every input byte string `s`,
`set_token_symbol` succeeds exactly when `s` is at most 16 bytes, after which
the stored buffer is the bytes of `s` followed by the previous buffer's bytes
from position `|s|` on (still 16 bytes in total; zero padding only when those
previous bytes were zero); an input longer than 16 bytes is rejected with the
`SetTokenSymbol` error and the stored buffer stays unchanged. -/
theorem c9_set_token_symbol_spec (buf s : List Nat) (hbuf : buf.length = 16) :
    (s.length ≤ 16 →
      set_token_symbol buf s = .ok (s ++ buf.drop s.length) ∧
      token_symbol_after buf s = s ++ buf.drop s.length ∧
      (s ++ buf.drop s.length).length = 16) ∧
    (16 < s.length →
      set_token_symbol buf s = .error (.setTokenSymbol
        "Input string is longer than 16 bytes and needs truncation.") ∧
      token_symbol_after buf s = buf) := by
  constructor
  · intro hle
    rcases Nat.lt_or_ge s.length 16 with hlt | hge
    · have hcmp : compare s.length 16 = .lt := Nat.compare_eq_lt.mpr hlt
      refine ⟨?_, ?_, ?_⟩ <;>
        simp [set_token_symbol, token_symbol_after, hcmp, hbuf] <;> omega
    · have heq : s.length = 16 := Nat.le_antisymm hle hge
      have hcmp : compare s.length 16 = .eq := Nat.compare_eq_eq.mpr heq
      have hdrop : buf.drop s.length = [] := by
        apply List.drop_eq_nil_of_le
        omega
      refine ⟨?_, ?_, ?_⟩
      · simp [set_token_symbol, hcmp, hdrop]
      · simp [token_symbol_after, set_token_symbol, hcmp, hdrop]
      · simp [hdrop, heq, hbuf]
  · intro hgt
    have hcmp : compare s.length 16 = .gt := Nat.compare_eq_gt.mpr hgt
    exact ⟨by simp [set_token_symbol, hcmp],
      by simp [token_symbol_after, set_token_symbol, hcmp]⟩

/-- Witness for C9's theorem: both branches at concrete inputs over the
all-zero previous buffer. -/
theorem c9_set_token_symbol_spec_witness :
    (set_token_symbol (List.replicate 16 0) [97] =
      .ok ([97] ++ (List.replicate 16 0 : List Nat).drop 1) ∧
     token_symbol_after (List.replicate 16 0) [97] =
      [97] ++ (List.replicate 16 0 : List Nat).drop 1 ∧
     (([97] : List Nat) ++ (List.replicate 16 0 : List Nat).drop 1).length = 16) ∧
    (set_token_symbol (List.replicate 16 0) (List.replicate 17 97) =
      .error (.setTokenSymbol
        "Input string is longer than 16 bytes and needs truncation.") ∧
     token_symbol_after (List.replicate 16 0) (List.replicate 17 97) =
      List.replicate 16 0) :=
  ⟨(c9_set_token_symbol_spec (List.replicate 16 0) [97] (by decide)).1
      (by decide),
   (c9_set_token_symbol_spec (List.replicate 16 0) (List.replicate 17 97)
      (by decide)).2 (by decide)⟩

/-! ## `BurnRequestStore::set_transferred` (`btc-nft-bridge/src/interface/store.rs`) -/

/-- `BurnRequestInfo`: a burn request's recipient address, the inscription's
reveal transaction id, and whether the outbound transfer happened. -/
structure BurnRequestInfo where
  address : String
  reveal_txid : String
  is_transferred : Bool
  deriving Repr, DecidableEq

/-- The `StableBTreeMap<BurnRequestId, BurnRequestInfo>` backing the store,
as its lookup function. -/
def BurnRequestMap := Nat → Option BurnRequestInfo

/-- `StableBTreeMap::insert`. -/
def mapInsert (m : BurnRequestMap) (k : Nat) (v : BurnRequestInfo) :
    BurnRequestMap :=
  fun q => if q = k then some v else m q

/-- `StableBTreeMap::remove`. -/
def mapRemove (m : BurnRequestMap) (k : Nat) : BurnRequestMap :=
  fun q => if q = k then none else m q

/-- `BurnRequestStore::set_transferred`: remove the entry, and when one was
present re-insert it with `is_transferred: true` and the other fields kept
(`..v`). -/
def set_transferred (m : BurnRequestMap) (request_id : Nat) : BurnRequestMap :=
  match m request_id with
  | some v =>
    mapInsert (mapRemove m request_id) request_id { v with is_transferred := true }
  | none => mapRemove m request_id

/-- C10: `set_transferred(request_id)` leaves the store completely unchanged
when `request_id` is absent, and when it is present it sets that entry's
`is_transferred` flag to `true`, preserves the entry's `address` and
`reveal_txid`, and leaves every other entry unchanged. -/
theorem c10_set_transferred_frame (m : BurnRequestMap) (k : Nat) :
    (m k = none → set_transferred m k = m) ∧
    (∀ v, m k = some v →
      set_transferred m k k =
        some { address := v.address, reveal_txid := v.reveal_txid,
               is_transferred := true } ∧
      ∀ q, q ≠ k → set_transferred m k q = m q) := by
  constructor
  · intro hnone
    funext q
    by_cases hq : q = k <;> simp [set_transferred, hnone, mapRemove, hq]
  · intro v hsome
    refine ⟨by simp [set_transferred, hsome, mapInsert], ?_⟩
    intro q hq
    simp [set_transferred, hsome, mapInsert, mapRemove, hq]

/-- A concrete store holding exactly one entry, at request id 5. -/
def burnMapOne : BurnRequestMap :=
  fun q => if q = 5 then some ⟨"bc1qaddr", "txid0", false⟩ else none

/-- Witness for C10's theorem at the concrete store `burnMapOne`: the absent
case at id 3, and the present case at id 5 with frame check at id 7. -/
theorem c10_set_transferred_frame_witness :
    set_transferred burnMapOne 3 = burnMapOne ∧
    set_transferred burnMapOne 5 5 =
      some { address := "bc1qaddr", reveal_txid := "txid0",
             is_transferred := true } ∧
    set_transferred burnMapOne 5 7 = burnMapOne 7 :=
  ⟨(c10_set_transferred_frame burnMapOne 3).1 rfl,
   ((c10_set_transferred_frame burnMapOne 5).2 ⟨"bc1qaddr", "txid0", false⟩ rfl).1,
   ((c10_set_transferred_frame burnMapOne 5).2 ⟨"bc1qaddr", "txid0", false⟩ rfl).2
     7 (by decide)⟩

/-! ## Rune-bridge deposit validation and withdraw helpers (`rune-bridge/src/ops.rs`) -/

/-- The `DepositError` variant produced by the confirmation gate. -/
inductive DepositError
  | pending (min_confirmations current_confirmations : Nat)
  deriving Repr, DecidableEq

/-- An IC Bitcoin outpoint: transaction id bytes and output index. -/
structure Outpoint where
  txid : List Nat
  vout : Nat
  deriving Repr, DecidableEq

/-- An IC Bitcoin `Utxo`. -/
structure Utxo where
  outpoint : Outpoint
  value : Nat
  height : Nat
  deriving Repr, DecidableEq

/-- The IC `GetUtxosResponse` fields the confirmation gate reads. -/
structure GetUtxosResponse where
  utxos : List Utxo
  tip_height : Nat
  deriving Repr, DecidableEq

/-- `validate_utxo_confirmations`: the minimum over the UTXOs of
`tip_height - utxo.height + 1` (`unwrap_or_default` giving 0 on an empty
list) must reach the configured `min_confirmations`. -/
def validate_utxo_confirmations (min_confirmations : Nat)
    (utxo_info : GetUtxosResponse) : Except DepositError Unit :=
  let utxo_min_confirmations :=
    ((utxo_info.utxos.map fun u => utxo_info.tip_height - u.height + 1).min?).getD 0
  if min_confirmations > utxo_min_confirmations then
    .error (.pending min_confirmations utxo_min_confirmations)
  else
    .ok ()

/-- C6: for every non-empty UTXO set (here: whose confirmation minimum is
`m`), the confirmation gate rejects with `Pending{min_confirmations, m}`
exactly when `m`, the minimum over the selected UTXOs of
`tip_height − utxo.height + 1`, is strictly below `min_confirmations`, and
passes otherwise — so at exactly `min_confirmations` confirmations the
deposit proceeds. -/
theorem c6_confirmation_gate (minc m : Nat) (resp : GetUtxosResponse)
    (hh : ∀ u ∈ resp.utxos, u.height ≤ resp.tip_height)
    (hm : (resp.utxos.map fun u => resp.tip_height - u.height + 1).min? = some m) :
    (validate_utxo_confirmations minc resp = .error (.pending minc m) ↔ m < minc) ∧
    (validate_utxo_confirmations minc resp = .ok () ↔ minc ≤ m) := by
  simp only [validate_utxo_confirmations, hm, Option.getD_some]
  by_cases h : minc > m
  · rw [if_pos h]
    constructor
    · simp only [iff_true_intro h, iff_true]
    · constructor
      · intro habs
        exact absurd habs (by simp)
      · omega
  · rw [if_neg h]
    constructor
    · constructor
      · intro habs
        exact absurd habs (by simp)
      · omega
    · simp only [true_iff]
      omega

/-- Witness for C6's theorem at the specification's scenario: tip height 12,
one UTXO at height 10 (so 3 confirmations); `min_confirmations = 4` rejects
with `Pending{4, 3}`, `min_confirmations = 3` passes. -/
theorem c6_confirmation_gate_witness :
    validate_utxo_confirmations 4 ⟨[⟨⟨[7], 0⟩, 100, 10⟩], 12⟩ =
      .error (.pending 4 3) ∧
    validate_utxo_confirmations 3 ⟨[⟨⟨[7], 0⟩, 100, 10⟩], 12⟩ = .ok () :=
  ⟨(c6_confirmation_gate 4 3 ⟨[⟨⟨[7], 0⟩, 100, 10⟩], 12⟩ (by decide)
      (by decide)).1.mpr (by decide),
   (c6_confirmation_gate 3 3 ⟨[⟨⟨[7], 0⟩, 100, 10⟩], 12⟩ (by decide)
      (by decide)).2.mpr (by decide)⟩

/-- The `WithdrawError` variants the embedded withdraw helpers produce. -/
inductive WithdrawError
  | noInputs
  | feeRateRequest
  deriving Repr, DecidableEq

/-- The outpoint data of a ledger UTXO (`tx_input_info`). -/
structure TxInputInfo where
  txid : List Nat
  vout : Nat
  deriving Repr, DecidableEq

/-- A ledger `StoredUtxo`: the transaction input data plus the derivation
path the deposit recorded for signing. -/
structure StoredUtxo where
  tx_input_info : TxInputInfo
  derivation_path : List (List Nat)
  deriving Repr, DecidableEq

/-- Outcome of the input-validation prefix of `build_withdraw_transaction`:
an error, the `todo!()` panic, or proceeding with the shared derivation
path. -/
inductive WithdrawCheckResult
  | err (e : WithdrawError)
  | panicTodo
  | proceed (derivation_path : List (List Nat))
  deriving Repr, DecidableEq

/-- The input-validation prefix of `build_withdraw_transaction`
(`ops.rs` lines 182–196): the empty-inputs check, the check that every input
shares `inputs[0]`'s derivation path — whose failure arm is a literal
`todo!()` — and the selection of that shared path. The rest of the function
builds, funds and signs the transaction through external collaborators. -/
def build_withdraw_transaction_check : List StoredUtxo → WithdrawCheckResult
  | [] => .err .noInputs
  | first :: rest =>
    if !((first :: rest).all fun input =>
        input.derivation_path == first.derivation_path) then
      .panicTodo
    else
      .proceed first.derivation_path

/-- Two ledger UTXOs with different derivation paths. -/
def heteroPathInputs : List StoredUtxo :=
  [{ tx_input_info := ⟨[1], 0⟩, derivation_path := [[0]] },
   { tx_input_info := ⟨[2], 0⟩, derivation_path := [[1]] }]

/-- C7: the code, evaluated at the failing input. On a non-empty input list
whose UTXOs do not all share one derivation path,
`build_withdraw_transaction` reaches the `todo!()` and panics instead of
returning a clear error; the empty-list case does return `Err(NoInputs)`. -/
theorem c7_withdraw_heterogeneous_paths_panic :
    build_withdraw_transaction_check heteroPathInputs = .panicTodo ∧
    build_withdraw_transaction_check [] = .err .noInputs :=
  ⟨rfl, rfl⟩

/-- The IC Bitcoin network selector. -/
inductive BitcoinNetwork
  | mainnet
  | testnet
  | regtest
  deriving Repr, DecidableEq

/-- `DEFAULT_REGTEST_FEE` (millisatoshi per vbyte). -/
def DEFAULT_REGTEST_FEE : Nat := 10000

/-- The percentile-selection part of `get_fee_rate` (`ops.rs` lines
248–258), applied to the fee-percentile table the Bitcoin host returned:
an empty table yields the hard regtest default on regtest and an error on
every other network; a non-empty table yields its entry at index
`len / 2`. -/
def middle_percentile_choice (network : BitcoinNetwork) (response : List Nat) :
    Except WithdrawError Nat :=
  if response.isEmpty then
    match network with
    | .regtest => .ok DEFAULT_REGTEST_FEE
    | _ => .error .feeRateRequest
  else
    .ok (response.getD (response.length / 2) 0)

/-- `FeeRate::from_sat_per_vb`: sat/vB to sat/kwu, `None` on `u64`
overflow. -/
def feeRateFromSatPerVb (sat_vb : Nat) : Option Nat :=
  if sat_vb * 250 < 2 ^ 64 then some (sat_vb * 250) else none

/-- `get_fee_rate` after a successful host fee-percentiles call that
returned `response`. -/
def get_fee_rate (network : BitcoinNetwork) (response : List Nat) :
    Except WithdrawError Nat :=
  match middle_percentile_choice network response with
  | .error e => .error e
  | .ok middle_percentile =>
    match feeRateFromSatPerVb (middle_percentile / 1000) with
    | some rate => .ok rate
    | none => .error .feeRateRequest

/-- Modelled from the spec: «fee from the host's 90th-percentile fee-rate
estimator». The host's fee-percentile table lists the fee rates at the
0th..100th percentile in order, so the 90th-percentile fee rate of the
101-entry table is its entry at index 90. -/
def spec_percentile_90 (response : List Nat) : Nat := response.getD 90 0

/-- The canonical 101-entry percentile table whose entry at index `i` is
`1000 · i` millisat/vB. -/
def percentileTable101 : List Nat := (List.range 101).map (· * 1000)

/-- C8, the claim as stated is false: on a non-empty percentile table the
code selects the entry at index `len / 2` (the median), not the
90th-percentile fee rate — on the concrete 101-entry table it picks 50000
where the 90th percentile is 90000. -/
theorem c8_selects_median_not_90th :
    middle_percentile_choice .mainnet percentileTable101 = .ok 50000 ∧
    spec_percentile_90 percentileTable101 = 90000 ∧
    (50000 : Nat) ≠ 90000 :=
  ⟨rfl, rfl, by decide⟩

/-- C8 (amended): for every fee-percentile table returned by the Bitcoin
host, the computation selects the table's middle entry (index `len / 2`)
when the table is non-empty; when the table is empty it uses the hard
regtest default `DEFAULT_REGTEST_FEE = 10000` millisat/vB (10 sat/vB) on the
regtest network and returns the `FeeRateRequest` error — never a
silently-zero fee — on every other network. -/
theorem c8_fee_rate_selection (network : BitcoinNetwork) (response : List Nat) :
    (response ≠ [] →
      middle_percentile_choice network response =
        .ok (response.getD (response.length / 2) 0)) ∧
    middle_percentile_choice .regtest [] = .ok DEFAULT_REGTEST_FEE ∧
    (network ≠ .regtest →
      middle_percentile_choice network [] = .error .feeRateRequest) := by
  refine ⟨?_, rfl, ?_⟩
  · intro hne
    cases response with
    | nil => exact absurd rfl hne
    | cons a l => rfl
  · intro hnr
    cases network with
    | regtest => exact absurd rfl hnr
    | mainnet => rfl
    | testnet => rfl

/-- Witness for C8's theorem: the non-empty branch at the one-entry table
`[7000]` and the empty-table branch on mainnet. -/
theorem c8_fee_rate_selection_witness :
    middle_percentile_choice .mainnet [7000] =
      .ok (([7000] : List Nat).getD (([7000] : List Nat).length / 2) 0) ∧
    middle_percentile_choice .mainnet [] = .error .feeRateRequest :=
  ⟨(c8_fee_rate_selection .mainnet [7000]).1 (by decide),
   (c8_fee_rate_selection .mainnet []).2.2 (by decide)⟩

/-! ## The BRC-20 EVM event-collector round (`brc20-bridge/src/scheduler.rs`) -/

/-- Modelled from the spec (the event ABI of
`minter-contract-utils/src/bft_bridge_api.rs` is not among the analysed
sources): the payload of a `Burnt` bridge event. -/
structure BurntEventData where
  operation_id : Nat
  recipient_id : List Nat
  amount : Nat
  deriving Repr, DecidableEq

/-- Modelled from the spec: the payload of a `Minted` bridge event, keyed by
`(sender, nonce)` for mint-order garbage collection. -/
structure MintedEventData where
  sender_id : List Nat
  nonce : Nat
  deriving Repr, DecidableEq

/-- Modelled from the spec: the outcome of `BridgeEvent::from_log` — a
`Burnt` or `Minted` event decoded from a log's payload. -/
inductive BridgeEvent
  | burnt (data : BurntEventData)
  | minted (data : MintedEventData)
  deriving Repr, DecidableEq

/-- An EVM log as the collector consumes it: its block number (absent while
the block is not finalised) and the result of the (spec-modelled) event
decoding `BridgeEvent::from_log` of its payload. -/
structure Log where
  block_number : Option Nat
  event : Except String BridgeEvent

/-- `MintErc20Args` as the scheduler reads it: the user address and the
inscription's reveal transaction id. -/
structure MintErc20Args where
  address : List Nat
  reveal_txid : String
  deriving Repr, DecidableEq

/-- The `Brc20Task` variants. -/
inductive Brc20Task
  | initEvmState
  | collectEvmEvents
  | removeMintOrder (data : MintedEventData)
  | mintErc20 (args : MintErc20Args)
  | inscribeBrc20 (data : BurntEventData)
  deriving Repr, DecidableEq

/-- The `TaskOptions` attached to a scheduled task: retry count and fixed
backoff seconds. -/
structure TaskOptions where
  max_retries : Nat
  backoff_secs : Nat
  deriving Repr, DecidableEq

/-- A task together with its options (`ScheduledTask`). -/
structure ScheduledBrc20Task where
  task : Brc20Task
  options : TaskOptions
  deriving Repr, DecidableEq

/-- `TASK_RETRY_DELAY_SECS`. -/
def TASK_RETRY_DELAY_SECS : Nat := 5

/-- `Brc20Task::task_by_log`: a `Burnt` event becomes an `InscribeBrc20`
task, a `Minted` event a `RemoveMintOrder` task (both with fixed 5-second
backoff and `u32::MAX` retries); a log whose payload decodes as neither is
dropped. The log's `block_number` is not consulted. -/
def task_by_log (log : Log) : Option ScheduledBrc20Task :=
  let options : TaskOptions :=
    { max_retries := 2 ^ 32 - 1, backoff_secs := TASK_RETRY_DELAY_SECS }
  match log.event with
  | .ok (.burnt burnt) => some ⟨.inscribeBrc20 burnt, options⟩
  | .ok (.minted minted) => some ⟨.removeMintOrder minted, options⟩
  | .error _ => none

/-- `EvmParams` (modelled from the spec for the fields beyond `next_block`;
the struct lives in `minter-contract-utils/src/evm_bridge.rs`, outside the
analysed sources): the cached EVM chain id, transaction nonce, gas price and
the collector checkpoint `next_block`. -/
structure EvmParams where
  chain_id : Nat
  nonce : Nat
  gas_price : Nat
  next_block : Nat
  deriving Repr, DecidableEq

/-- The outcome of one collector round: the stored `EvmParams` afterwards
and the tasks appended to the scheduler. -/
structure CollectOutcome where
  params : Option EvmParams
  appended_tasks : List ScheduledBrc20Task

/-- The processing `Brc20Task::collect_evm_events` applies to the log list
returned by `BridgeEvent::collect_logs` (the fetch itself is an external
call): absent `EvmParams` and an empty log list short-circuit with no state
change; otherwise `last_log` is the last log of the maximal prefix of logs
carrying block numbers (`take_while(block_number.is_some()).last()`), and if
it exists `next_block` becomes its block number plus one (the `getD 0`
models the `unwrap()`, which the `take_while` guard keeps from panicking);
finally every log — finalised or not — is passed through `task_by_log` and
the produced tasks are appended. -/
def collect_evm_events (params : Option EvmParams) (logs : List Log) :
    CollectOutcome :=
  match params with
  | none => { params := none, appended_tasks := [] }
  | some params =>
    if logs.isEmpty then { params := some params, appended_tasks := [] }
    else
      let last_log := (logs.takeWhile fun l => l.block_number.isSome).getLast?
      let new_params :=
        match last_log with
        | some last_log =>
          some { params with next_block := last_log.block_number.getD 0 + 1 }
        | none => some params
      { params := new_params, appended_tasks := logs.filterMap task_by_log }

/-- A concrete burnt-event payload. -/
def burntEvent0 : BurntEventData := ⟨1, [98, 99, 49], 10⟩

/-- A concrete minted-event payload. -/
def mintedEvent0 : MintedEventData := ⟨List.replicate 32 3, 9⟩

/-- Concrete cached EVM parameters with checkpoint `next_block = 100`. -/
def evmParams0 : EvmParams := ⟨355113, 3, 10, 100⟩

/-- C1: the code, evaluated at the failing input. A round whose single log
has no block number (not yet finalised) but decodes as a `Burnt` event
leaves `next_block` unchanged, yet the log IS converted to an
`InscribeBrc20` task — the claim says logs without a block number are not
converted to tasks in that round. Moreover, with logs
`[None, block 101 (Minted)]` the checkpoint also stays unchanged (the code
takes the longest finalised prefix, which is empty, rather than the last
finalised log), while both logs are converted to tasks. -/
theorem c1_unfinalised_logs_become_tasks :
    (collect_evm_events (some evmParams0)
        [⟨none, .ok (.burnt burntEvent0)⟩]).appended_tasks =
      [⟨.inscribeBrc20 burntEvent0, ⟨2 ^ 32 - 1, 5⟩⟩] ∧
    (collect_evm_events (some evmParams0)
        [⟨none, .ok (.burnt burntEvent0)⟩]).params = some evmParams0 ∧
    (collect_evm_events (some evmParams0)
        [⟨none, .ok (.burnt burntEvent0)⟩,
         ⟨some 101, .ok (.minted mintedEvent0)⟩]).params = some evmParams0 ∧
    (collect_evm_events (some evmParams0)
        [⟨none, .ok (.burnt burntEvent0)⟩,
         ⟨some 101, .ok (.minted mintedEvent0)⟩]).appended_tasks =
      [⟨.inscribeBrc20 burntEvent0, ⟨2 ^ 32 - 1, 5⟩⟩,
       ⟨.removeMintOrder mintedEvent0, ⟨2 ^ 32 - 1, 5⟩⟩] :=
  ⟨rfl, rfl, rfl, rfl⟩

/-! ## Deposit nonce assignment (`btc-bridge/src/canister.rs`,
`rune-bridge/src/ops.rs`) -/

/-- Modelled from the spec: `Id256::from_evm_address` derives the 32-byte
sender identifier deterministically from the EVM address and chain id
(`minter-did` is outside the analysed sources). -/
def id256FromEvmAddress (address : List Nat) (chain_id : Nat) : List Nat :=
  u32be chain_id ++ address ++ List.replicate 8 0

/-- Modelled from the spec: the 32-byte token identifier derived
deterministically from a principal (`Id256::from(&Principal)`). -/
def id256FromPrincipal (principal_bytes : List Nat) : List Nat :=
  principal_bytes.length :: principal_bytes ++
    List.replicate (31 - principal_bytes.length) 0

/-- The nonce `BtcBridge::prepare_mint_order` assigns to a deposit's mint
order: `let nonce = base_utxo.height;` (the UTXO's block height, not a
counter). -/
def btc_mint_order_nonce (base_utxo : Utxo) : Nat := base_utxo.height

/-- The `(sender, src_token, nonce)` key under which
`BtcBridge::prepare_mint_order` persists a deposit's signed mint order:
sender derived from the user's EVM address and the configured BTC chain id,
`src_token` from the configured ckBTC ledger principal, nonce the base
UTXO's height. -/
def btc_mint_order_key (eth_address : List Nat) (btc_chain_id : Nat)
    (ck_btc_ledger : List Nat) (base_utxo : Utxo) :
    List Nat × List Nat × Nat :=
  (id256FromEvmAddress eth_address btc_chain_id,
   id256FromPrincipal ck_btc_ledger,
   btc_mint_order_nonce base_utxo)

/-- A deposit UTXO at block height 100. -/
def depositUtxoA : Utxo := ⟨⟨[170], 0⟩, 50000, 100⟩

/-- A different deposit UTXO, also at block height 100. -/
def depositUtxoB : Utxo := ⟨⟨[187], 1⟩, 70000, 100⟩

/-- A concrete user EVM address (20 bytes). -/
def ethAddr0 : List Nat := List.replicate 20 7

/-- A concrete ckBTC ledger principal. -/
def ckBtcLedger0 : List Nat := [0, 0, 0, 0, 0, 48, 0, 218, 1, 1]

/-- C2: the code, evaluated at the failing input. Two successful BTC-bridge
deposits by the same user whose (distinct) base UTXOs lie at the same block
height are persisted under identical `(sender, src_token, nonce)` keys,
because `prepare_mint_order` uses the UTXO's height as the nonce instead of
incrementing a process-wide counter — the resulting key sequence is not
pairwise distinct. -/
theorem c2_btc_nonce_collision :
    depositUtxoA ≠ depositUtxoB ∧
    btc_mint_order_key ethAddr0 0 ckBtcLedger0 depositUtxoA =
      btc_mint_order_key ethAddr0 0 ckBtcLedger0 depositUtxoB ∧
    ¬ List.Pairwise (fun a b => a ≠ b)
        [btc_mint_order_key ethAddr0 0 ckBtcLedger0 depositUtxoA,
         btc_mint_order_key ethAddr0 0 ckBtcLedger0 depositUtxoB] :=
  ⟨by decide, rfl, by decide⟩

/-! ## Mint-order submission (`btc-bridge/src/ops.rs`, `rune-bridge/src/ops.rs`) -/

/-- The `Erc20MintError` variants the embedded submission flow produces
(the variant for a failed ckBTC ledger transfer is modelled from the spec;
the `interface` module is outside the analysed sources). -/
inductive Erc20MintError
  | valueTooSmall
  | sign (msg : String)
  | evm (msg : String)
  | notInitialized
  | ckBtcLedgerTransfer (msg : String)
  deriving Repr, DecidableEq

/-- `Erc20MintStatus` as returned to the deposit caller. -/
inductive Erc20MintStatus
  | minted (amount : Nat) (tx_id : List Nat)
  | signed (order : List Nat)
  | scheduled (current_confirmations required_confirmations : Nat)
  deriving Repr, DecidableEq

/-- The results of the external calls one `mint_erc20` run performs, in
program order: the signer's address query, the mint order's digest
signature (inside `prepare_mint_order`), the ckBTC ledger transfer, the EVM
transaction signature, and the EVM `send_raw_transaction` submission. -/
structure MintCallResults where
  get_address : Except String (List Nat)
  sign_digest : Except String (List Nat)
  transfer : Except String Nat
  sign_transaction : Except String (List Nat)
  send_raw_transaction : Except String (List Nat)

/-- `send_mint_order` of `btc-bridge/src/ops.rs` (lines 221–273), as a
transformer of the cached `EvmParams`: every outcome leaves the cached
parameters untouched — the BTC bridge variant contains no
`update_evm_params` call after a successful submission. -/
def send_mint_order_btc (params : Option EvmParams) (calls : MintCallResults) :
    Except Erc20MintError (List Nat) × Option EvmParams :=
  match calls.get_address with
  | .error e => (.error (.sign e), params)
  | .ok _ =>
    match params with
    | none => (.error .notInitialized, params)
    | some _ =>
      match calls.sign_transaction with
      | .error e => (.error (.sign e), params)
      | .ok _ =>
        match calls.send_raw_transaction with
        | .error e => (.error (.evm e), params)
        | .ok id => (.ok id, params)

/-- `send_mint_order` of `rune-bridge/src/ops.rs` (lines 582–640): the same
flow, but after a successful `send_raw_transaction` it runs
`update_evm_params(|p| p.nonce += 1)`. -/
def send_mint_order_rune (params : Option EvmParams) (calls : MintCallResults) :
    Except Erc20MintError (List Nat) × Option EvmParams :=
  match calls.get_address with
  | .error e => (.error (.sign e), params)
  | .ok _ =>
    match params with
    | none => (.error .notInitialized, params)
    | some p =>
      match calls.sign_transaction with
      | .error e => (.error (.sign e), params)
      | .ok _ =>
        match calls.send_raw_transaction with
        | .error e => (.error (.evm e), params)
        | .ok id => (.ok id, some { p with nonce := p.nonce + 1 })

/-- `mint_erc20` of `btc-bridge/src/ops.rs` (lines 104–130): subtract the
ledger fee (`checked_sub` rejecting with `ValueTooSmall`), prepare and sign
the order, transfer the ckBTC from the user subaccount, store the order, and
submit it: a successful submission yields `Minted`, a failed one yields
`Signed(order)`. -/
def mint_erc20 (fee : Nat) (params : Option EvmParams) (calls : MintCallResults)
    (amount : Nat) (mint_order : List Nat) :
    Except Erc20MintError Erc20MintStatus × Option EvmParams :=
  if amount < fee then (.error .valueTooSmall, params)
  else
    let amount_minus_fee := amount - fee
    match calls.sign_digest with
    | .error e => (.error (.sign e), params)
    | .ok _ =>
      match calls.transfer with
      | .error e => (.error (.ckBtcLedgerTransfer e), params)
      | .ok _ =>
        match send_mint_order_btc params calls with
        | (.ok tx_id, params') =>
          (.ok (.minted amount_minus_fee tx_id), params')
        | (.error _, params') => (.ok (.signed mint_order), params')

/-- External-call results in which every call succeeds and the EVM
submission returns the transaction hash `[222]`. -/
def callsAllOk : MintCallResults :=
  { get_address := .ok (List.replicate 20 1)
    sign_digest := .ok (List.replicate 65 0)
    transfer := .ok 1
    sign_transaction := .ok (List.replicate 65 2)
    send_raw_transaction := .ok [222] }

/-- External-call results in which the final EVM submission fails. -/
def callsEvmFail : MintCallResults :=
  { callsAllOk with send_raw_transaction := .error "rpc unavailable" }

/-- C5: the code, evaluated at the failing input. In the BTC bridge, a
deposit whose mint order was built and signed and whose EVM submission
succeeds returns `Minted{amount − fee, tx_id}` but leaves the cached
`EvmParams.nonce` unchanged (here it stays 3) — the claim requires the nonce
to be incremented by exactly 1, as the rune-bridge `send_mint_order` indeed
does; on a failed submission the BTC bridge returns `Signed(order)` with the
nonce unchanged, as claimed. -/
theorem c5_btc_mint_does_not_increment_nonce :
    mint_erc20 10 (some evmParams0) callsAllOk 100 [5] =
      (.ok (.minted 90 [222]), some evmParams0) ∧
    (send_mint_order_rune (some evmParams0) callsAllOk).2 =
      some { evmParams0 with nonce := evmParams0.nonce + 1 } ∧
    mint_erc20 10 (some evmParams0) callsEvmFail 100 [5] =
      (.ok (.signed [5]), some evmParams0) :=
  ⟨rfl, rfl, rfl⟩

end ChainFusion
